import Mathlib

/-!
Verification development for the syspass-cli versioned API-client core.

The definitions below are shallow embeddings of the Rust source:
  * `src/syspass-cli/src/api/syspass.rs` (shared transport helpers,
    `sort_accounts`, `get_params`, `get_cached_password`, `get_response`,
    `send_request`),
  * `src/syspass-cli/src/api/syspass/v3.rs` (current adapter),
  * `src/syspass-cli/src/api/syspass/v2.rs` (legacy adapter),
  * `src/syspass-cli/src/config.rs` (usage-data store access).

Machine integers (`u32`, `i32`, `u8`) are modelled as `Nat`/`Int`; none of the
verified claims involves overflow.  Code that can panic (`expect`, `unwrap`)
is modelled with `Option`, `none` standing for the aborted computation.
-/

/-- Rust `u32::cmp` (`Ord::cmp` on unsigned integers). -/
def cmpNat (a b : Nat) : Ordering :=
  if a < b then Ordering.lt else if b < a then Ordering.gt else Ordering.eq

/-- Rust `Option::<u32>::cmp`: `None` sorts before `Some`. -/
def cmpOptNat (a b : Option Nat) : Ordering :=
  match a, b with
  | none, none => Ordering.eq
  | none, some _ => Ordering.lt
  | some _, none => Ordering.gt
  | some x, some y => cmpNat x y

/-- The shared entity model `api::account::Account`
(`src/syspass-cli/src/api/account.rs`): all fields as in the Rust struct,
with `u32` as `Nat` and `Option<String>` as `Option String`. -/
structure Account where
  id : Option Nat
  name : String
  login : String
  url : Option String
  notes : Option String
  category_id : Nat
  client_id : Nat
  pass : Option String
  client_name : Option String
deriving DecidableEq

/-- The usage-counter store `HashMap<u32, u32>`, modelled as an association
list; only its lookup function is ever observed. -/
abbrev UsageMap : Type := List (Nat × Nat)

/-- `usage_data.get(&id).unwrap_or(&0)`: lookup with default 0. -/
def usageLookup (m : UsageMap) (i : Nat) : Nat :=
  (List.lookup i m).getD 0

/-- The usage counter of one account, as read inside the `sort_accounts`
comparator: `usage_data.get(a.id().expect("Id is set")).unwrap_or(&0)`.
The source aborts (`expect`) when the id is `None`; that branch is
unreachable under the populated-identifier hypothesis of the claims and is
modelled as counter 0. -/
def cnt (usage : UsageMap) (a : Account) : Nat :=
  match a.id with
  | some i => usageLookup usage i
  | none => 0

/-- The comparator closure of `sort_accounts`
(`src/syspass-cli/src/api/syspass.rs:40-48`):
both counters zero compares the (optional) ids ascending, otherwise the
counters compare reversed (`right.cmp(left)`, i.e. descending counters). -/
def cmpAccount (usage : UsageMap) (a b : Account) : Ordering :=
  let left := cnt usage a
  let right := cnt usage b
  if left = 0 && right = 0 then
    cmpOptNat a.id b.id
  else
    cmpNat right left

/-- `a` may precede `b` under the `sort_accounts` comparator
(the comparator does not answer `Greater`). -/
def accLe (usage : UsageMap) (a b : Account) : Bool :=
  match cmpAccount usage a b with
  | Ordering.gt => false
  | _ => true

/-- One step of a stable insertion sort by a boolean comparator; stands in
for Rust's stable `slice::sort_by` (stable sorts by one total preorder
produce the same list, so the choice of stable algorithm is immaterial). -/
def insertLe (le : α → α → Bool) (a : α) : List α → List α
  | [] => [a]
  | b :: l => if le a b then a :: b :: l else b :: insertLe le a l

/-- Stable insertion sort by a boolean comparator. -/
def sortLe (le : α → α → Bool) : List α → List α
  | [] => []
  | a :: l => insertLe le a (sortLe le l)

/-- `sort_accounts` (`src/syspass-cli/src/api/syspass.rs:39-50`):
`list.sort_by(comparator)` with the comparator `cmpAccount`. -/
def sort_accounts (list : List Account) (usage_data : UsageMap) : List Account :=
  sortLe (accLe usage_data) list

theorem mem_insertLe {le : α → α → Bool} {a x : α} {l : List α} :
    x ∈ insertLe le a l ↔ x = a ∨ x ∈ l := by
  induction l with
  | nil => simp [insertLe]
  | cons b t ih =>
    by_cases h : le a b = true
    · simp only [insertLe, if_pos h, List.mem_cons]
    · simp only [insertLe, if_neg h, List.mem_cons, ih]
      tauto

theorem perm_insertLe (le : α → α → Bool) (a : α) (l : List α) :
    List.Perm (insertLe le a l) (a :: l) := by
  induction l with
  | nil => simp [insertLe]
  | cons b t ih =>
    by_cases h : le a b = true
    · simp [insertLe, h]
    · simp only [insertLe, if_neg h]
      exact (ih.cons b).trans (List.Perm.swap a b t)

theorem perm_sortLe (le : α → α → Bool) (l : List α) :
    List.Perm (sortLe le l) l := by
  induction l with
  | nil => simp [sortLe]
  | cons a t ih =>
    exact (perm_insertLe le a (sortLe le t)).trans (ih.cons a)

theorem pairwise_insertLe {le : α → α → Bool}
    (htot : ∀ a b, le a b = true ∨ le b a = true)
    (htrans : ∀ a b c, le a b = true → le b c = true → le a c = true)
    {a : α} {l : List α}
    (hl : List.Pairwise (fun x y => le x y = true) l) :
    List.Pairwise (fun x y => le x y = true) (insertLe le a l) := by
  induction l with
  | nil => simp [insertLe]
  | cons b t ih =>
    rcases List.pairwise_cons.mp hl with ⟨hb, ht⟩
    by_cases h : le a b = true
    · simp only [insertLe, if_pos h]
      refine List.pairwise_cons.mpr ⟨?_, hl⟩
      intro x hx
      rcases List.mem_cons.mp hx with hx | hx
      · exact hx ▸ h
      · exact htrans a b x h (hb x hx)
    · have hba : le b a = true := (htot a b).resolve_left h
      simp only [insertLe, if_neg h]
      refine List.pairwise_cons.mpr ⟨?_, ih ht⟩
      intro x hx
      rcases mem_insertLe.mp hx with hx | hx
      · exact hx ▸ hba
      · exact hb x hx

theorem pairwise_sortLe {le : α → α → Bool}
    (htot : ∀ a b, le a b = true ∨ le b a = true)
    (htrans : ∀ a b c, le a b = true → le b c = true → le a c = true)
    (l : List α) :
    List.Pairwise (fun x y => le x y = true) (sortLe le l) := by
  induction l with
  | nil => simp [sortLe]
  | cons a t ih => exact pairwise_insertLe htot htrans ih

theorem cmpNat_eq_gt_iff {a b : Nat} : cmpNat a b = Ordering.gt ↔ b < a := by
  unfold cmpNat
  split_ifs with h1 h2 <;> simp_all <;> omega

theorem cmpOptNat_total (a b : Option Nat) :
    cmpOptNat a b ≠ Ordering.gt ∨ cmpOptNat b a ≠ Ordering.gt := by
  cases a <;> cases b <;> simp [cmpOptNat, cmpNat_eq_gt_iff]
  omega

theorem cmpOptNat_trans {a b c : Option Nat}
    (hab : cmpOptNat a b ≠ Ordering.gt) (hbc : cmpOptNat b c ≠ Ordering.gt) :
    cmpOptNat a c ≠ Ordering.gt := by
  cases a <;> cases b <;> cases c <;>
    simp_all [cmpOptNat, cmpNat_eq_gt_iff] <;> omega

theorem accLe_true_iff {u : UsageMap} {a b : Account} :
    accLe u a b = true ↔ cmpAccount u a b ≠ Ordering.gt := by
  unfold accLe
  cases h : cmpAccount u a b <;> simp

theorem cmpAccount_ne_gt_of_zero {u : UsageMap} {a b : Account}
    (ha : cnt u a = 0) (hb : cnt u b = 0) :
    cmpAccount u a b = cmpOptNat a.id b.id := by
  simp [cmpAccount, ha, hb]

theorem cmpAccount_of_nonzero {u : UsageMap} {a b : Account}
    (h : ¬(cnt u a = 0 ∧ cnt u b = 0)) :
    cmpAccount u a b = cmpNat (cnt u b) (cnt u a) := by
  unfold cmpAccount
  simp only []
  rw [if_neg]
  simp only [Bool.and_eq_true, decide_eq_true_eq]
  exact h

theorem accLe_total (u : UsageMap) (a b : Account) :
    accLe u a b = true ∨ accLe u b a = true := by
  simp only [accLe_true_iff]
  by_cases h : cnt u a = 0 ∧ cnt u b = 0
  · rw [cmpAccount_ne_gt_of_zero h.1 h.2, cmpAccount_ne_gt_of_zero h.2 h.1]
    exact cmpOptNat_total a.id b.id
  · have h2 : ¬(cnt u b = 0 ∧ cnt u a = 0) := fun hc => h ⟨hc.2, hc.1⟩
    rw [cmpAccount_of_nonzero h, cmpAccount_of_nonzero h2]
    simp only [ne_eq, cmpNat_eq_gt_iff]
    omega

theorem accLe_trans (u : UsageMap) (a b c : Account)
    (hab : accLe u a b = true) (hbc : accLe u b c = true) :
    accLe u a c = true := by
  rw [accLe_true_iff] at hab hbc ⊢
  by_cases ha : cnt u a = 0 <;> by_cases hb : cnt u b = 0 <;> by_cases hc : cnt u c = 0
  · rw [cmpAccount_ne_gt_of_zero ha hb] at hab
    rw [cmpAccount_ne_gt_of_zero hb hc] at hbc
    rw [cmpAccount_ne_gt_of_zero ha hc]
    exact cmpOptNat_trans hab hbc
  · rw [cmpAccount_of_nonzero (by tauto)] at hbc
    simp only [ne_eq, cmpNat_eq_gt_iff] at hbc
    omega
  · rw [cmpAccount_of_nonzero (by tauto)] at hab
    simp only [ne_eq, cmpNat_eq_gt_iff] at hab
    omega
  · rw [cmpAccount_of_nonzero (by tauto)] at hab
    simp only [ne_eq, cmpNat_eq_gt_iff] at hab
    omega
  · rw [cmpAccount_of_nonzero (by tauto)]
    simp only [ne_eq, cmpNat_eq_gt_iff]
    omega
  · rw [cmpAccount_of_nonzero (by tauto)] at hbc
    simp only [ne_eq, cmpNat_eq_gt_iff] at hbc
    omega
  · rw [cmpAccount_of_nonzero (by tauto)]
    simp only [ne_eq, cmpNat_eq_gt_iff]
    omega
  · rw [cmpAccount_of_nonzero (by tauto)] at hab hbc
    rw [cmpAccount_of_nonzero (by tauto)]
    simp only [ne_eq, cmpNat_eq_gt_iff] at hab hbc ⊢
    omega

theorem accLe_consequences {u : UsageMap} {a b : Account}
    (h : accLe u a b = true) :
    (cnt u a = 0 → cnt u b = 0) ∧
    ((cnt u a ≠ 0 ∨ cnt u b ≠ 0) → cnt u b ≤ cnt u a) ∧
    (cnt u a = 0 → cnt u b = 0 →
      ∀ i j, a.id = some i → b.id = some j → i ≤ j) := by
  rw [accLe_true_iff] at h
  by_cases hz : cnt u a = 0 ∧ cnt u b = 0
  · rw [cmpAccount_ne_gt_of_zero hz.1 hz.2] at h
    refine ⟨fun _ => hz.2, fun hc => absurd hz (by tauto), ?_⟩
    intro _ _ i j hi hj
    rw [hi, hj] at h
    simp only [cmpOptNat, ne_eq, cmpNat_eq_gt_iff] at h
    omega
  · rw [cmpAccount_of_nonzero hz] at h
    simp only [ne_eq, cmpNat_eq_gt_iff] at h
    exact ⟨fun ha => by omega, fun _ => by omega, fun ha hb => absurd ⟨ha, hb⟩ hz⟩

theorem cnt_disabled (a : Account) : cnt [(0, 0)] a = 0 := by
  cases h : a.id with
  | none => simp [cnt, h]
  | some i =>
    cases i <;> simp [cnt, h, usageLookup, List.lookup]

/-- Claim C1: for every account list with populated identifiers and every
usage-counter map, `sort_accounts` permutes the list so that nonzero-counter
accounts precede zero-counter ones, nonzero-counter accounts appear in
descending counter order, zero-counter accounts appear in ascending
identifier order, and with the ranking-disabled map `{0: 0}` (as passed by
`search_account` when `usage` is false) all accounts appear in ascending
identifier order. -/
theorem c1_sort_accounts_spec (usage : UsageMap) (l : List Account)
    (h : ∀ a ∈ l, (Account.id a).isSome) :
    List.Perm (sort_accounts l usage) l ∧
    List.Pairwise (fun a b => cnt usage a = 0 → cnt usage b = 0)
      (sort_accounts l usage) ∧
    List.Pairwise
      (fun a b => (cnt usage a ≠ 0 ∨ cnt usage b ≠ 0) →
        cnt usage b ≤ cnt usage a)
      (sort_accounts l usage) ∧
    List.Pairwise
      (fun a b => cnt usage a = 0 → cnt usage b = 0 →
        ∀ i j, a.id = some i → b.id = some j → i ≤ j)
      (sort_accounts l usage) ∧
    List.Pairwise (fun a b => ∀ i j, a.id = some i → b.id = some j → i ≤ j)
      (sort_accounts l [(0, 0)]) := by
  have hsorted := pairwise_sortLe (accLe_total usage) (accLe_trans usage) l
  have hdis := pairwise_sortLe (accLe_total [(0, 0)]) (accLe_trans [(0, 0)]) l
  refine ⟨perm_sortLe _ l, ?_, ?_, ?_, ?_⟩
  · exact hsorted.imp fun hab => (accLe_consequences hab).1
  · exact hsorted.imp fun hab => (accLe_consequences hab).2.1
  · exact hsorted.imp fun hab => (accLe_consequences hab).2.2
  · refine hdis.imp fun {a b} hab => ?_
    exact (accLe_consequences hab).2.2 (cnt_disabled a) (cnt_disabled b)

def acctSeven : Account := ⟨some 7, "seven", "l", none, none, 1, 1, none, none⟩

def acctNine : Account := ⟨some 9, "nine", "l", none, none, 1, 1, none, none⟩

theorem c1_sort_accounts_spec_witness :
    (∀ a ∈ [acctNine, acctSeven], (Account.id a).isSome) ∧
    (List.Perm (sort_accounts [acctNine, acctSeven] [(7, 3)])
        [acctNine, acctSeven] ∧
      List.Pairwise (fun a b => cnt [(7, 3)] a = 0 → cnt [(7, 3)] b = 0)
        (sort_accounts [acctNine, acctSeven] [(7, 3)]) ∧
      List.Pairwise
        (fun a b => (cnt [(7, 3)] a ≠ 0 ∨ cnt [(7, 3)] b ≠ 0) →
          cnt [(7, 3)] b ≤ cnt [(7, 3)] a)
        (sort_accounts [acctNine, acctSeven] [(7, 3)]) ∧
      List.Pairwise
        (fun a b => cnt [(7, 3)] a = 0 → cnt [(7, 3)] b = 0 →
          ∀ i j, a.id = some i → b.id = some j → i ≤ j)
        (sort_accounts [acctNine, acctSeven] [(7, 3)]) ∧
      List.Pairwise (fun a b => ∀ i j, a.id = some i → b.id = some j → i ≤ j)
        (sort_accounts [acctNine, acctSeven] [(0, 0)])) :=
  ⟨by decide, c1_sort_accounts_spec [(7, 3)] [acctNine, acctSeven] (by decide)⟩

/-- Whether a caller-supplied argument pair survives the emptiness check of
`get_params`: `!arg.0.is_empty() && !arg.1.is_empty()`. -/
def argKept (kv : String × String) : Bool :=
  (kv.1 != "") && (kv.2 != "")

/-- `HashMap::insert` on the request-parameter map, modelled on an
association list: replaces the value of an existing key, otherwise appends. -/
def insertP (k v : String) : List (String × String) → List (String × String)
  | [] => [(k, v)]
  | (k2, v2) :: t => if k2 = k then (k, v) :: t else (k2, v2) :: insertP k v t

/-- `HashMap::get` on the request-parameter map. -/
def lookupP (k : String) : List (String × String) → Option String
  | [] => none
  | (k2, v2) :: t => if k2 = k then some v2 else lookupP k t

/-- The argument loop of `get_params`
(`src/syspass-cli/src/api/syspass.rs:95-101`): inserts every caller pair
that passes the emptiness check, in order. -/
def foldArgs (args : List (String × String)) (m : List (String × String)) :
    List (String × String) :=
  args.foldl (fun m kv => if argKept kv then insertP kv.1 kv.2 m else m) m

/-- `Syspass::get_params` (`src/syspass-cli/src/api/syspass.rs:84-104`).
`password` is the already-resolved vault password (the stateful resolution
`config.password` / `get_cached_password` is modelled separately by
`resolve_password`); the map starts from `authToken`, gains `tokenPass`
when `needs_password`, then folds the caller arguments. -/
def get_params (token password : String)
    (args : Option (List (String × String))) (needs_password : Bool) :
    List (String × String) :=
  let params := [("authToken", token)]
  let params := if needs_password then insertP "tokenPass" password params
    else params
  match args with
  | some args => foldArgs args params
  | none => params

theorem lookupP_insertP_self (k v : String) (m : List (String × String)) :
    lookupP k (insertP k v m) = some v := by
  induction m with
  | nil => simp [insertP, lookupP]
  | cons kv t ih =>
    obtain ⟨k2, v2⟩ := kv
    by_cases h : k2 = k
    · simp [insertP, lookupP, h]
    · simp [insertP, lookupP, h, ih]

theorem lookupP_insertP_ne {k k2 : String} (h : k2 ≠ k) (v : String)
    (m : List (String × String)) :
    lookupP k (insertP k2 v m) = lookupP k m := by
  induction m with
  | nil => simp [insertP, lookupP, h]
  | cons kv t ih =>
    obtain ⟨k3, v3⟩ := kv
    by_cases h3 : k3 = k2
    · subst h3
      simp [insertP, lookupP, h]
    · by_cases hk : k3 = k
      · have hne : ¬(k = k2) := fun hh => h hh.symm
        simp [insertP, lookupP, hk, hne]
      · simp [insertP, lookupP, h3, hk, ih]

theorem foldArgs_cons (kv : String × String) (t : List (String × String))
    (m : List (String × String)) :
    foldArgs (kv :: t) m
      = foldArgs t (if argKept kv then insertP kv.1 kv.2 m else m) := rfl

theorem foldArgs_lookup_nokey {k : String} {args : List (String × String)}
    (h : ∀ kv ∈ args, kv.1 ≠ k) (m : List (String × String)) :
    lookupP k (foldArgs args m) = lookupP k m := by
  induction args generalizing m with
  | nil => rfl
  | cons kv t ih =>
    rw [foldArgs_cons]
    rcases List.forall_mem_cons.mp h with ⟨hkv, ht⟩
    by_cases hkept : argKept kv = true
    · rw [if_pos hkept, ih ht, lookupP_insertP_ne hkv]
    · rw [if_neg hkept, ih ht]

theorem foldArgs_filter (args m : List (String × String)) :
    foldArgs args m = foldArgs (args.filter argKept) m := by
  induction args generalizing m with
  | nil => rfl
  | cons kv t ih =>
    by_cases hkept : argKept kv = true
    · rw [foldArgs_cons, if_pos hkept, List.filter_cons_of_pos hkept,
        foldArgs_cons, if_pos hkept, ih]
    · rw [foldArgs_cons, if_neg hkept,
        List.filter_cons_of_neg (by simpa using hkept), ih]

theorem foldArgs_append (l1 l2 m : List (String × String)) :
    foldArgs (l1 ++ l2) m = foldArgs l2 (foldArgs l1 m) := by
  simp [foldArgs, List.foldl_append]

/-- Claim C10 fails as stated: with the configured token `"t"` and the
caller-supplied arguments `[("authToken", "x"), ("tokenPass", "y")]` on an
operation that does not need a password, the built parameter map carries
`authToken ↦ "x"` (not the configured token) and does contain `tokenPass`:
later `HashMap::insert` calls for caller arguments overwrite the reserved
entries. -/
theorem c10_get_params_counterexample :
    lookupP "authToken"
        (get_params "t" "p" (some [("authToken", "x"), ("tokenPass", "y")])
          false) ≠ some "t" ∧
    lookupP "tokenPass"
        (get_params "t" "p" (some [("authToken", "x"), ("tokenPass", "y")])
          false) ≠ none := by
  decide

/-- Claim C10 (amended): provided no caller-supplied key is one of the
reserved keys `authToken`/`tokenPass`, the map built by `get_params` sends
`authToken` to the configured token, contains `tokenPass` exactly when the
operation needs a password, and silently omits every caller pair whose key
or value is empty (the map equals the one built from the filtered list). -/
theorem c10_get_params_amended (token password : String) (np : Bool)
    (args : List (String × String))
    (h : ∀ kv ∈ args, kv.1 ≠ "authToken" ∧ kv.1 ≠ "tokenPass") :
    lookupP "authToken" (get_params token password (some args) np)
      = some token ∧
    (lookupP "tokenPass" (get_params token password (some args) np)).isSome
      = np ∧
    get_params token password (some args) np
      = get_params token password (some (args.filter argKept)) np := by
  have hbase1 : lookupP "authToken"
      (if np = true then insertP "tokenPass" password [("authToken", token)]
        else [("authToken", token)]) = some token := by
    cases np <;> simp [insertP, lookupP]
  have hbase2 : (lookupP "tokenPass"
      (if np = true then insertP "tokenPass" password [("authToken", token)]
        else [("authToken", token)])).isSome = np := by
    cases np <;> simp [insertP, lookupP]
  refine ⟨?_, ?_, ?_⟩
  · rw [get_params, foldArgs_lookup_nokey (fun kv hkv => (h kv hkv).1)]
    exact hbase1
  · rw [get_params, foldArgs_lookup_nokey (fun kv hkv => (h kv hkv).2)]
    exact hbase2
  · simp only [get_params]
    exact foldArgs_filter args _

theorem c10_get_params_amended_witness :
    (∀ kv ∈ [("id", "5"), ("text", "")],
      kv.1 ≠ "authToken" ∧ kv.1 ≠ "tokenPass") ∧
    (lookupP "authToken"
        (get_params "t" "p" (some [("id", "5"), ("text", "")]) true)
      = some "t" ∧
    (lookupP "tokenPass"
        (get_params "t" "p" (some [("id", "5"), ("text", "")]) true)).isSome
      = true ∧
    get_params "t" "p" (some [("id", "5"), ("text", "")]) true
      = get_params "t" "p"
          (some ([("id", "5"), ("text", "")].filter argKept)) true) :=
  ⟨by decide, c10_get_params_amended "t" "p" true [("id", "5"), ("text", "")]
    (by decide)⟩

theorem toDigitsCore_length_ge (b : Nat) :
    ∀ (fuel n : Nat) (ds : List Char),
      ds.length ≤ (Nat.toDigitsCore b fuel n ds).length := by
  intro fuel
  induction fuel with
  | zero => intro n ds; simp [Nat.toDigitsCore]
  | succ f ih =>
    intro n ds
    simp only [Nat.toDigitsCore]
    by_cases h : n / b = 0
    · simp [h]
    · rw [if_neg h]
      calc ds.length ≤ (Nat.digitChar (n % b) :: ds).length := by simp
        _ ≤ _ := ih (n / b) (Nat.digitChar (n % b) :: ds)

theorem nat_repr_ne_empty (n : Nat) : Nat.repr n ≠ "" := by
  intro hcontra
  have hdata : (Nat.repr n).data = [] := by rw [hcontra]
  have hlen : (Nat.toDigits 10 n).length = 0 := by
    have : (Nat.repr n).data = Nat.toDigits 10 n := rfl
    rw [this] at hdata
    simp [hdata]
  unfold Nat.toDigits at hlen
  have h1 : (1 : Nat) ≤ (Nat.toDigitsCore 10 (n + 1) n []).length := by
    simp only [Nat.toDigitsCore]
    by_cases h : n / 10 = 0
    · simp [h]
    · rw [if_neg h]
      have := toDigitsCore_length_ge 10 n (n / 10) [Nat.digitChar (n % 10)]
      simpa using this
  omega

/-- `Syspass::create_or_edit` (`src/syspass-cli/src/api/syspass/v3.rs:92-103`). -/
def create_or_edit (id : Option Nat) : String :=
  match id with
  | some i => if i = 0 then "create" else "edit"
  | none => "create"

/-- `Syspass::save` of the v3 adapter
(`src/syspass-cli/src/api/syspass/v3.rs:112-133`), up to the request handed
to `forge_and_send(&method, args, true)`: the method name and the parameter
map of the forged request.  In the edit branch `create_or_edit` guarantees
`id = some i` with `i ≠ 0`, so `Option.getD 0` returns exactly the value
the source obtains by `id.expect(..)`.  The response handling of lines
133-142 is independent of claim C2 and not modelled. -/
def v3_save (path : String) (id : Option Nat)
    (args : Option (List (String × String))) (token password : String) :
    String × List (String × String) :=
  (path ++ "/" ++ create_or_edit id,
    get_params token password
      (if create_or_edit id = "edit" then
        match args with
        | some l => some (l ++ [("id", Nat.repr (id.getD 0))])
        | none => none
      else args) true)

/-- Claim C2: saving through the v3 adapter with identifier absent or 0
forges a `<resource>/create` request, and with identifier `n > 0` forges a
`<resource>/edit` request whose parameters carry the extra entry
`id ↦ n` (decimal rendering).  This covers accounts, clients and
categories: `save_account`, `save_client` and `save_category` all call
`save` with `Some`-wrapped argument lists. -/
theorem c2_v3_save_create_edit (path token password : String)
    (l : List (String × String)) :
    (v3_save path none (some l) token password).1
      = path ++ "/" ++ "create" ∧
    (v3_save path (some 0) (some l) token password).1
      = path ++ "/" ++ "create" ∧
    (∀ n, 0 < n →
      (v3_save path (some n) (some l) token password).1
        = path ++ "/" ++ "edit" ∧
      lookupP "id" (v3_save path (some n) (some l) token password).2
        = some (Nat.repr n)) := by
  refine ⟨rfl, ?_, ?_⟩
  · simp [v3_save, create_or_edit]
  · intro n hn
    have hne : n ≠ 0 := Nat.pos_iff_ne_zero.mp hn
    have hce : create_or_edit (some n) = "edit" := by
      simp [create_or_edit, hne]
    constructor
    · simp [v3_save, hce]
    · have hkept : argKept ("id", Nat.repr n) = true := by
        simp [argKept, nat_repr_ne_empty n]
      simp only [v3_save, hce, if_pos, Option.getD_some, get_params]
      rw [foldArgs_append, foldArgs_cons, if_pos hkept]
      exact lookupP_insertP_self "id" (Nat.repr n) _

theorem c2_v3_save_create_edit_witness :
    ((v3_save "client" none (some [("name", "Ops")]) "t" "p").1
        = "client" ++ "/" ++ "create" ∧
      (v3_save "client" (some 0) (some [("name", "Ops")]) "t" "p").1
        = "client" ++ "/" ++ "create") ∧
    (0 < 5 ∧
      (v3_save "client" (some 5) (some [("name", "Ops")]) "t" "p").1
        = "client" ++ "/" ++ "edit" ∧
      lookupP "id" (v3_save "client" (some 5) (some [("name", "Ops")])
          "t" "p").2 = some (Nat.repr 5)) :=
  ⟨⟨(c2_v3_save_create_edit "client" "t" "p" [("name", "Ops")]).1,
    (c2_v3_save_create_edit "client" "t" "p" [("name", "Ops")]).2.1⟩,
    by decide,
    ((c2_v3_save_create_edit "client" "t" "p" [("name", "Ops")]).2.2 5
      (by decide)).1,
    ((c2_v3_save_create_edit "client" "t" "p" [("name", "Ops")]).2.2 5
      (by decide)).2⟩

/-- The JSON-RPC request as the claims observe it: method name and
parameter map.  The constant `jsonrpc: "2.0"` member and the sequential
`id` counter of `JsonReq` play no role in any claim and are omitted. -/
structure JsonReqM where
  method : String
  params : List (String × String)

/-- `NOT_SUPPORTED` (`src/syspass-cli/src/api/syspass/v2.rs:117`). -/
def NOT_SUPPORTED : String := "Syspass does not support this"

/-- `Syspass::save` of the v2 adapter
(`src/syspass-cli/src/api/syspass/v2.rs:161-191`), up to the forged
request: an identifier greater than 0 returns `Err(NOT_SUPPORTED)` before
any request is built; otherwise the request handed to
`forge_and_send(path, args, true)` is forged.  The first component is the
request that leaves the function (`none` = no network request), the second
the locally produced error.  Decoding of the eventual response (lines
168-190) is independent of claims C3/C7 and not modelled. -/
def v2_save (path : String) (id : Option Nat)
    (args : Option (List (String × String))) (token password : String) :
    Option JsonReqM × Option String :=
  match id with
  | some new_id =>
    if 0 < new_id then (none, some NOT_SUPPORTED)
    else (some ⟨path, get_params token password args true⟩, none)
  | none => (some ⟨path, get_params token password args true⟩, none)

/-- `ChangePassword` (`src/syspass-cli/src/api/account.rs:114-118`). -/
structure ChangePassword where
  pass : String
  id : Nat
  expire_date : Int

/-- `Syspass::change_password` of the v2 adapter
(`src/syspass-cli/src/api/syspass/v2.rs:373-375`): unconditionally
`Err(NOT_SUPPORTED)`, no request forged. -/
def v2_change_password (_password : ChangePassword) :
    Option JsonReqM × Option String :=
  (none, some NOT_SUPPORTED)

/-- `Syspass::get_category` of the v2 adapter
(`src/syspass-cli/src/api/syspass/v2.rs:405-407`). -/
def v2_get_category (_id : Nat) : Option JsonReqM × Option String :=
  (none, some NOT_SUPPORTED)

/-- `Syspass::get_client` of the v2 adapter
(`src/syspass-cli/src/api/syspass/v2.rs:409-411`). -/
def v2_get_client (_id : Nat) : Option JsonReqM × Option String :=
  (none, some NOT_SUPPORTED)

/-- Claim C3: every save through the legacy adapter with identifier
greater than 0 returns the local "not supported" error and forges no
request (first component `none`); `save_client`, `save_category` and
`save_account` all funnel through this `save`. -/
theorem c3_v2_save_rejects_edit (path token password : String)
    (args : Option (List (String × String))) (n : Nat) (h : 0 < n) :
    v2_save path (some n) args token password = (none, some NOT_SUPPORTED) ∧
    NOT_SUPPORTED = "Syspass does not support this" := by
  refine ⟨?_, rfl⟩
  simp [v2_save, h]

theorem c3_v2_save_rejects_edit_witness :
    0 < 5 ∧
    (v2_save "addCustomer" (some 5) (some [("name", "Ops")]) "t" "p"
        = (none, some NOT_SUPPORTED) ∧
      NOT_SUPPORTED = "Syspass does not support this") :=
  ⟨by decide,
    c3_v2_save_rejects_edit "addCustomer" "t" "p" (some [("name", "Ops")]) 5
      (by decide)⟩

/-- Claim C7: the legacy adapter's `change_password`, single-entity
`get_category` and `get_client` always return the `NOT_SUPPORTED` sentinel
with no request forged, and it is the same sentinel a rejected save
returns. -/
theorem c7_v2_unsupported_operations (p : ChangePassword) (i j : Nat)
    (path token password : String)
    (args : Option (List (String × String))) :
    v2_change_password p = (none, some NOT_SUPPORTED) ∧
    v2_get_category i = (none, some NOT_SUPPORTED) ∧
    v2_get_client j = (none, some NOT_SUPPORTED) ∧
    (v2_save path (some 1) args token password).2
      = (v2_change_password p).2 := by
  refine ⟨rfl, rfl, rfl, ?_⟩
  simp [v2_save, v2_change_password]

/-- The HTTP response as the transport observes it. -/
structure HttpResponse where
  status : Nat
  body : String

/-- `reqwest::StatusCode::is_success`: 2xx. -/
def is_success (s : Nat) : Bool := 200 ≤ s && s ≤ 299

/-- `get_response` (`src/syspass-cli/src/api/syspass.rs:64-75`).  The input
is the outcome of `client.post(..).json(&req).send()`: `Except.error` is a
network-level failure (message `e.to_string()`), `Except.ok` an HTTP
response.  Rust formats the status with its canonical reason phrase
appended ("404 Not Found"); the model renders the numeric code, which is
what the claim is about. -/
def get_response (send : Except String HttpResponse) :
    Except String HttpResponse :=
  match send with
  | Except.ok r =>
    if is_success r.status then Except.ok r
    else Except.error ("Server responded with code " ++ Nat.repr r.status)
  | Except.error e => Except.error e

/-- `Syspass::send_request` (`src/syspass-cli/src/api/syspass.rs:106-125`).
`parse_json` stands for `result.json()` (`none` = body is not JSON) and
`decode` for `serde_json::from_value::<T>` (error = decode diagnostic);
both are abstract because the claims never constrain the JSON grammar.
The boolean records whether the body was ever handed to the JSON parser. -/
def send_request (send : Except String HttpResponse)
    (parse_json : String → Option J) (decode : J → Except String T) :
    Except String T × Bool :=
  match get_response send with
  | Except.error e => (Except.error e, false)
  | Except.ok r =>
    match parse_json r.body with
    | none => (Except.error "Server response did not contain JSON", true)
    | some j =>
      match decode j with
      | Except.ok v => (Except.ok v, true)
      | Except.error e => (Except.error e, true)

/-- Claim C5: a non-2xx HTTP status makes `send_request` return the
transport error carrying that status code, and the body is never handed to
the JSON parser (flag `false`, and the result is independent of the body
and of both decoders). -/
theorem c5_send_request_http_error {J T : Type} (r : HttpResponse)
    (parse_json : String → Option J) (decode : J → Except String T)
    (h : is_success r.status = false) :
    send_request (Except.ok r) parse_json decode
      = (Except.error ("Server responded with code " ++ Nat.repr r.status),
        false) := by
  simp [send_request, get_response, h]

theorem c5_send_request_http_error_witness :
    is_success 404 = false ∧
    send_request (J := Unit) (T := Unit)
        (Except.ok ⟨404, "the body"⟩) (fun _ => none)
        (fun _ => Except.error "nope")
      = (Except.error ("Server responded with code " ++ Nat.repr 404),
        false) :=
  ⟨by decide,
    c5_send_request_http_error ⟨404, "the body"⟩ (fun _ => none)
      (fun _ => Except.error "nope") (by decide)⟩

/-- Rust `str::parse::<u32>`: an optional leading `+`, then one or more
ASCII digits, value within `u32` range; anything else fails. -/
def parse_u32 (s : String) : Option Nat :=
  let ds := match s.data with
    | '+' :: rest => rest
    | l => l
  if !ds.isEmpty && ds.all Char.isDigit then
    let v := ds.foldl (fun acc c => acc * 10 + (c.toNat - 48)) 0
    if v < 4294967296 then some v else none
  else none

/-- Sequences a list of `expect`ed decodes: any `none` (a decode panic in
the source) aborts the whole computation. -/
def collectSome : List (Option α) → Option (List α)
  | [] => some []
  | none :: _ => none
  | some a :: t => (collectSome t).map (a :: ·)

/-- `Syspass::fix_result_object` (`src/syspass-cli/src/api/syspass/v2.rs:
193-201`): the legacy list payload object, iterated in order, keeps the
entries whose key parses as `u32` and decodes each kept value
(`from_value::<T>(..).expect(..)`).  Each entry's value arrives here as
`Option T` — `none` meaning serde cannot decode it — so the `expect` panic
is `collectSome`'s `none`. -/
def fix_result_object (entries : List (String × Option T)) : Option (List T) :=
  collectSome ((entries.filter (fun e => (parse_u32 e.1).isSome)).map Prod.snd)

/-- The shared client entity `api::client::Client` as the v2 adapter
builds it (`Client::new(Some(id), name, description, 0)`). -/
structure Client where
  id : Option Nat
  name : String
  description : Option String
  is_global : Nat
deriving DecidableEq

/-- The legacy wire shape of a client
(`src/syspass-cli/src/api/syspass/v2.rs:42-48`). -/
structure WireClient where
  customer_description : Option String
  customer_id : String
  customer_name : String
deriving DecidableEq

/-- `From<Client> for api::client::Client`
(`src/syspass-cli/src/api/syspass/v2.rs:50-59`): the string identifier is
parsed to `u32`, `expect`-panicking (`none`) on a non-numeric identifier. -/
def client_from_v2 (w : WireClient) : Option Client :=
  match parse_u32 w.customer_id with
  | some i => some ⟨some i, w.customer_name, w.customer_description, 0⟩
  | none => none

/-- The `a.id().cmp(&b.id())` comparator used to sort client lists. -/
def clientLe (a b : Client) : Bool :=
  match cmpOptNat a.id b.id with
  | Ordering.gt => false
  | _ => true

/-- `Syspass::get_clients` of the v2 adapter
(`src/syspass-cli/src/api/syspass/v2.rs:273-290`), from the decoded
`result` payload object onwards: `fix_result_object`, conversion of each
wire client, and the ascending-identifier sort. -/
def v2_get_clients (entries : List (String × Option WireClient)) :
    Option (List Client) :=
  match fix_result_object entries with
  | none => none
  | some ws =>
    match collectSome (ws.map client_from_v2) with
    | none => none
    | some list => some (sortLe clientLe list)

theorem collectSome_eq_none_of_mem_none {l : List (Option α)}
    (h : none ∈ l) : collectSome l = none := by
  induction l with
  | nil => cases h
  | cons a t ih =>
    cases a with
    | none => rfl
    | some v =>
      rcases List.mem_cons.mp h with h1 | h1
      · cases h1
      · simp [collectSome, ih h1]

/-- Claim C6: (1) an entry whose key does not parse as `u32` is ignored
wherever it sits and whatever its value, even an undecodable one;
(2) a decoded entity whose string identifier is non-numeric fails hard;
(3) a numeric identifier is parsed into the entity; (4) the hard failure
propagates through the whole legacy list operation. -/
theorem c6_v2_list_decoding :
    (∀ (pre post : List (String × Option WireClient)) (k : String)
      (v : Option WireClient), parse_u32 k = none →
        fix_result_object (pre ++ (k, v) :: post)
          = fix_result_object (pre ++ post)) ∧
    (∀ w, parse_u32 w.customer_id = none → client_from_v2 w = none) ∧
    (∀ w i, parse_u32 w.customer_id = some i →
      client_from_v2 w
        = some ⟨some i, w.customer_name, w.customer_description, 0⟩) ∧
    (∀ (entries : List (String × Option WireClient)) ws w,
      fix_result_object entries = some ws → w ∈ ws →
        parse_u32 w.customer_id = none → v2_get_clients entries = none) := by
  refine ⟨?_, ?_, ?_, ?_⟩
  · intro pre post k v h
    simp [fix_result_object, List.filter_append, List.filter_cons, h]
  · intro w h
    simp [client_from_v2, h]
  · intro w i h
    simp [client_from_v2, h]
  · intro entries ws w hfix hmem hbad
    have hnone : client_from_v2 w = none := by simp [client_from_v2, hbad]
    have : (none : Option Client) ∈ ws.map client_from_v2 := by
      rw [← hnone]
      exact List.mem_map_of_mem client_from_v2 hmem
    simp [v2_get_clients, hfix, collectSome_eq_none_of_mem_none this]

def wireAlpha : WireClient := ⟨none, "1", "alpha"⟩

def wireBeta : WireClient := ⟨some "desc", "2", "beta"⟩

theorem c6_v2_list_decoding_witness :
    parse_u32 "description" = none ∧
    fix_result_object
        [("1", some wireAlpha), ("description", none), ("2", some wireBeta)]
      = fix_result_object [("1", some wireAlpha), ("2", some wireBeta)] :=
  ⟨by decide,
    c6_v2_list_decoding.1 [("1", some wireAlpha)] [("2", some wireBeta)]
      "description" none (by decide)⟩

/-- The legacy wire shape of an account
(`src/syspass-cli/src/api/syspass/v2.rs:68-81`); `account_countView` is
carried but unused by the conversion, exactly as in the source. -/
structure WireAccountV2 where
  account_categoryId : String
  account_countView : String
  account_customerId : String
  account_id : String
  account_login : String
  account_name : String
  account_notes : Option String
  account_pass : String
  account_url : Option String
  customer_name : String
deriving DecidableEq

/-- `From<Account> for api::account::Account`
(`src/syspass-cli/src/api/syspass/v2.rs:101-115`): note line 111 passes
`Some(value.account_pass.clone())` as the entity's password. -/
def account_from_v2 (w : WireAccountV2) : Option Account :=
  match parse_u32 w.account_id, parse_u32 w.account_categoryId,
      parse_u32 w.account_customerId with
  | some i, some c, some cu =>
    some ⟨some i, w.account_name, w.account_login, w.account_url,
      w.account_notes, c, cu, some w.account_pass, some w.customer_name⟩
  | _, _, _ => none

/-- The normalization performed by the legacy `search_account`
(`src/syspass-cli/src/api/syspass/v2.rs:217-245`) after the wire accounts
are decoded: convert each via `From<Account>` and sort. -/
def v2_search_normalize (wire : List WireAccountV2) (usage : UsageMap) :
    Option (List Account) :=
  match collectSome (wire.map account_from_v2) with
  | none => none
  | some list => some (sort_accounts list usage)

/-- The normalization performed by the current `search_account`
(`src/syspass-cli/src/api/syspass/v3.rs:154-175`) after the payload is
decoded into accounts: only the usage sort. -/
def v3_search_normalize (list : List Account) (usage : UsageMap) :
    List Account :=
  sort_accounts list usage

def wSecret : WireAccountV2 :=
  ⟨"1", "0", "1", "1", "login", "name", none, "secret", none, "cust"⟩

/-- Claim C4 fails as stated: the legacy adapter's search returns accounts
whose password field is populated — the wire field `account_pass` is
mandatory in the v2 search payload and `From<Account>` copies it into the
entity, so this concrete one-account search result carries
`pass = some "secret"`. -/
theorem c4_search_password_counterexample :
    (v2_search_normalize [wSecret] []).map (fun l => l.map Account.pass)
      = some [some "secret"] ∧
    (some "secret" : Option String) ≠ none := by
  decide

def aSecret : Account :=
  ⟨some 1, "name", "login", none, none, 1, 1, some "secret", some "cust"⟩

/-- Claim C4 (amended): search results carry exactly the password material
present on the wire — the v2 adapter copies the mandatory `account_pass`
wire field into every returned account, while the v3 adapter returns the
decoded entities unchanged (its sort only permutes them, adding no
password); only the explicit password-viewing operation produces a
`ViewPassword`. -/
theorem c4_search_password_amended :
    (∀ (w : WireAccountV2) (a : Account),
      account_from_v2 w = some a → a.pass = some w.account_pass) ∧
    (∀ (l : List Account) (u : UsageMap) (a : Account),
      a ∈ v3_search_normalize l u → a ∈ l) := by
  constructor
  · intro w a h
    unfold account_from_v2 at h
    cases h1 : parse_u32 w.account_id <;> rw [h1] at h <;>
      cases h2 : parse_u32 w.account_categoryId <;> rw [h2] at h <;>
        cases h3 : parse_u32 w.account_customerId <;> rw [h3] at h <;>
          simp_all
    exact h.symm ▸ rfl
  · intro l u a h
    exact (perm_sortLe (accLe u) l).mem_iff.mp h

theorem c4_search_password_amended_witness :
    (account_from_v2 wSecret = some aSecret ∧
      aSecret ∈ v3_search_normalize [aSecret] []) ∧
    (aSecret.pass = some wSecret.account_pass ∧ aSecret ∈ [aSecret]) :=
  ⟨⟨by decide, by decide⟩,
    c4_search_password_amended.1 wSecret aSecret (by decide),
    c4_search_password_amended.2 [aSecret] [] aSecret (by decide)⟩

/-- `get_cached_password` (`src/syspass-cli/src/api/syspass.rs:23-35`) with
the thread-local `PASSWORD` cache threaded explicitly: an empty cache
prompts once and stores the entered value, a non-empty cache is returned
as is.  `entered` is the value `ask_for_password("API password: ", false)`
returns; that prompt is built with `ValueRequiredValidator`
(`src/syspass-cli/src/prompt.rs:81-84`), so in every real run
`entered ≠ ""`.  Result: (resolved value, new cache, prompts fired). -/
def get_cached_password (entered cache : String) : String × String × Nat :=
  if cache = "" then (entered, entered, 1) else (cache, cache, 0)

/-- The password resolution inside `get_params`
(`src/syspass-cli/src/api/syspass.rs:87-93`): the configured password when
non-empty, otherwise the cached/prompted one. -/
def resolve_password (config_password entered cache : String) :
    String × String × Nat :=
  if config_password = "" then get_cached_password entered cache
  else (config_password, cache, 0)

/-- A process run over the sequence `ops` of operations (`true` = the
operation needs the vault password, so `get_params` resolves it); returns
the resolved password of every secret operation in order, the final cache
and the total number of prompt firings. -/
def run_secret_ops (config_password entered : String) :
    String → Nat → List Bool → List String × String × Nat
  | cache, prompts, [] => ([], cache, prompts)
  | cache, prompts, op :: ops =>
    if op then
      match resolve_password config_password entered cache with
      | (v, cache2, fired) =>
        match run_secret_ops config_password entered cache2 (prompts + fired)
            ops with
        | (vs, cache3, total) => (v :: vs, cache3, total)
    else
      run_secret_ops config_password entered cache prompts ops

theorem run_secret_ops_invariant (config_password entered : String)
    (he : entered ≠ "") (ops : List Bool) :
    ∀ cache prompts,
      (cache = "" ∧ prompts = 0) ∨ (cache = entered ∧ prompts ≤ 1) →
      (run_secret_ops config_password entered cache prompts ops).2.2 ≤ 1 ∧
      (config_password ≠ "" →
        (run_secret_ops config_password entered cache prompts ops).2.2
          = prompts) ∧
      (∀ v ∈ (run_secret_ops config_password entered cache prompts ops).1,
        v = if config_password = "" then entered else config_password) := by
  induction ops with
  | nil =>
    intro cache prompts hinv
    refine ⟨?_, fun _ => rfl, by simp [run_secret_ops]⟩
    rcases hinv with ⟨_, h0⟩ | ⟨_, h1⟩
    · simp [run_secret_ops, h0]
    · simpa [run_secret_ops] using h1
  | cons op t ih =>
    intro cache prompts hinv
    cases op with
    | false => exact ih cache prompts hinv
    | true =>
      by_cases hcfg : config_password = ""
      · rcases hinv with ⟨hc, hp⟩ | ⟨hc, hp⟩
        · subst hc hp
          have hres : resolve_password config_password entered ""
              = (entered, entered, 1) := by
            simp [resolve_password, get_cached_password, hcfg]
          have hrec := ih entered 1 (Or.inr ⟨rfl, le_refl 1⟩)
          simp only [run_secret_ops, if_pos, hres, Nat.zero_add]
          rcases hrest : run_secret_ops config_password entered entered 1 t
            with ⟨vs, cache3, total⟩
          rw [hrest] at hrec
          refine ⟨hrec.1, fun hne => absurd hcfg hne, ?_⟩
          intro v hv
          rcases List.mem_cons.mp hv with hv | hv
          · simp [hv, hcfg]
          · exact hrec.2.2 v hv
        · have hres : resolve_password config_password entered cache
              = (entered, entered, 0) := by
            rw [hc]
            simp [resolve_password, get_cached_password, hcfg, he]
          have hrec := ih entered prompts (Or.inr ⟨rfl, hp⟩)
          simp only [run_secret_ops, if_pos, hres, Nat.add_zero]
          rcases hrest : run_secret_ops config_password entered entered
            prompts t with ⟨vs, cache3, total⟩
          rw [hrest] at hrec
          refine ⟨hrec.1, fun hne => absurd hcfg hne, ?_⟩
          intro v hv
          rcases List.mem_cons.mp hv with hv | hv
          · simp [hv, hcfg]
          · exact hrec.2.2 v hv
      · have hres : resolve_password config_password entered cache
            = (config_password, cache, 0) := by
          simp [resolve_password, hcfg]
        have hrec := ih cache prompts hinv
        simp only [run_secret_ops, if_pos, hres, Nat.add_zero]
        rcases hrest : run_secret_ops config_password entered cache prompts t
          with ⟨vs, cache3, total⟩
        rw [hrest] at hrec
        refine ⟨hrec.1, fun hne => hrec.2.1 hne, ?_⟩
        intro v hv
        rcases List.mem_cons.mp hv with hv | hv
        · simp [hv, hcfg]
        · exact hrec.2.2 v hv

/-- Claim C8: starting from the empty cache of a fresh process, over any
sequence of operations the vault-password prompt fires at most once; when
the configuration supplies a non-empty password it never fires; and every
secret operation resolves to the configured password when present,
otherwise to the one value entered at the single prompt (the prompt cannot
return an empty string, `entered ≠ ""`). -/
theorem c8_prompt_at_most_once (config_password entered : String)
    (ops : List Bool) (he : entered ≠ "") :
    (run_secret_ops config_password entered "" 0 ops).2.2 ≤ 1 ∧
    (config_password ≠ "" →
      (run_secret_ops config_password entered "" 0 ops).2.2 = 0) ∧
    (∀ v ∈ (run_secret_ops config_password entered "" 0 ops).1,
      v = if config_password = "" then entered else config_password) :=
  run_secret_ops_invariant config_password entered he ops "" 0
    (Or.inl ⟨rfl, rfl⟩)

theorem c8_prompt_at_most_once_witness :
    ("pw" : String) ≠ "" ∧
    ((run_secret_ops "" "pw" "" 0 [true, false, true, true]).2.2 ≤ 1 ∧
    ((("" : String) ≠ "") →
      (run_secret_ops "" "pw" "" 0 [true, false, true, true]).2.2 = 0) ∧
    (∀ v ∈ (run_secret_ops "" "pw" "" 0 [true, false, true, true]).1,
      v = if ("" : String) = "" then "pw" else "")) :=
  ⟨by decide, c8_prompt_at_most_once "" "pw" [true, false, true, true]
    (by decide)⟩

/-- The outcome of `fs::read_to_string` on a config-store file. -/
inductive ReadOutcome where
  | ok (data : String)
  | notFound
  | otherError

/-- `get_config_file_or_write` (`src/syspass-cli/src/config.rs:45-59`):
an existing readable file yields its content; a missing file
(`ErrorKind::NotFound`) writes and returns the serialized default; any
other read error panics ("Couldn't read config file"), modelled `none`. -/
def get_config_file_or_write (read : ReadOutcome) (default_data : String) :
    Option String :=
  match read with
  | ReadOutcome.ok s => some s
  | ReadOutcome.notFound => some default_data
  | ReadOutcome.otherError => none

/-- `serde_json::to_string(&HashMap::from([(0, 0)]))`: the serialized
default usage map written on first use. -/
def usage_default_data : String := "\x7b\"0\":0\x7d"

/-- `Config::get_usage_data` (`src/syspass-cli/src/config.rs:79-83`):
reads `usage.json` with default `HashMap::from([(0, 0)])`, then parses the
returned string (`serde_json::from_str`, panicking — `none` — on invalid
JSON); `parse` abstracts the serde parser. -/
def get_usage_data (read : ReadOutcome) (parse : String → Option UsageMap) :
    Option UsageMap :=
  (get_config_file_or_write read usage_default_data).bind parse

/-- Claim C9 fails as stated: an existing-but-unreadable usage store (a
read error other than `NotFound`) aborts the operation (`none`, a panic in
the source) instead of being treated as an empty ranking map — here even
with a parser accepting every input. -/
theorem c9_usage_data_counterexample :
    get_usage_data ReadOutcome.otherError (fun _ => some []) = none := rfl

theorem cnt_nil (a : Account) : cnt [] a = 0 := by
  cases h : a.id <;> simp [cnt, h, usageLookup, List.lookup]

theorem cmpAccount_congr {u1 u2 : UsageMap}
    (h : ∀ x, cnt u1 x = cnt u2 x) (a b : Account) :
    cmpAccount u1 a b = cmpAccount u2 a b := by
  unfold cmpAccount
  rw [h a, h b]

/-- Claim C9 (amended): only a *missing* usage store is tolerated: it is
replaced by the written-back default map `{0: 0}` (given that serde
round-trips that constant, `hparse`), and that default ranks every account
list exactly as the empty map does; an existing-but-unreadable store
aborts the operation instead of falling back. -/
theorem c9_usage_data_amended (parse : String → Option UsageMap)
    (hparse : parse usage_default_data = some [(0, 0)]) :
    get_usage_data ReadOutcome.notFound parse = some [(0, 0)] ∧
    (∀ l : List Account, sort_accounts l [(0, 0)] = sort_accounts l []) ∧
    get_usage_data ReadOutcome.otherError parse = none := by
  refine ⟨?_, ?_, rfl⟩
  · simp [get_usage_data, get_config_file_or_write, hparse]
  · intro l
    have hcnt : ∀ x, cnt [(0, 0)] x = cnt [] x := by
      intro x
      rw [cnt_disabled, cnt_nil]
    have hacc : accLe [(0, 0)] = accLe [] := by
      funext a b
      unfold accLe
      rw [cmpAccount_congr hcnt a b]
    unfold sort_accounts
    rw [hacc]

theorem c9_usage_data_amended_witness :
    ((fun s => if s = usage_default_data
        then some ([(0, 0)] : UsageMap) else none) usage_default_data
      = some [(0, 0)]) ∧
    (get_usage_data ReadOutcome.notFound
        (fun s => if s = usage_default_data
          then some ([(0, 0)] : UsageMap) else none) = some [(0, 0)] ∧
      (∀ l : List Account,
        sort_accounts l [(0, 0)] = sort_accounts l []) ∧
      get_usage_data ReadOutcome.otherError
        (fun s => if s = usage_default_data
          then some ([(0, 0)] : UsageMap) else none) = none) :=
  ⟨by decide,
    c9_usage_data_amended
      (fun s => if s = usage_default_data
        then some ([(0, 0)] : UsageMap) else none) (by decide)⟩
